import Mathlib

/-!
Verification development for the awesome-copilot browsing/download client.

The definitions below are a shallow embedding of the program's core:
the multi-source catalog service (`getFiles`, `getFilesByRepo`), the
recursive directory listing (`getDirectoryContents`), the collection
download loop of `downloadCopilotItem`, the skill-folder write-target
computation, the download ledger (`DownloadTracker`), and the collection
manifest validation.  Remote I/O is represented by explicit outcome
parameters (oracles); timestamps are integers (milliseconds); JavaScript
string truthiness (empty string and `undefined` are falsy) is modelled
explicitly where the source relies on it.
-/

namespace AwesomeCopilot

/-- File kind reported by the listing API (`type: "file" | "dir"`). -/
inductive FileType where
  | file
  | dir
deriving DecidableEq, Repr

/-- A configured repository source (src/types.ts `RepoSource`). -/
structure RepoSource where
  owner : String
  repo : String
  label : Option String := none
  baseUrl : Option String := none
deriving DecidableEq, Repr

/-- A listing entry (src/types.ts `GitHubFile`), with the optional `repo`
tag added by the service and the optional `displayName` used for duplicate
disambiguation.  `sha` models the untyped `(file as any).sha` field:
`none` stands for `undefined`. -/
structure GitHubFile where
  name : String
  path : String
  download_url : String
  size : Int
  ftype : FileType
  sha : Option String := none
  repo : Option RepoSource := none
  displayName : Option String := none
deriving DecidableEq, Repr

/-- The content categories (src/types.ts `CopilotCategory`). -/
inductive CopilotCategory where
  | collections
  | instructions
  | prompts
  | agents
  | skills
deriving DecidableEq, Repr

/-- The string value of each category enum member. -/
def categoryStr : CopilotCategory → String
  | .collections => "collections"
  | .instructions => "instructions"
  | .prompts => "prompts"
  | .agents => "agents"
  | .skills => "skills"

/-- JavaScript truthiness of an optional string: `undefined` and the empty
string are falsy. -/
def truthyStrOpt : Option String → Bool
  | none => false
  | some s => s ≠ ""

/-- JavaScript `String.prototype.startsWith`, expressed over character
lists. -/
def strStartsWith (s pre : String) : Bool :=
  List.isPrefixOf pre.data s.data

/-- JavaScript `String.prototype.endsWith`, expressed over character
lists. -/
def strEndsWith (s suf : String) : Bool :=
  List.isSuffixOf suf.data s.data

/-- JavaScript `String.prototype.trim` restricted to the usual whitespace
characters, expressed over character lists. -/
def trimStr (s : String) : String :=
  String.mk (((s.data.dropWhile Char.isWhitespace).reverse.dropWhile Char.isWhitespace).reverse)

/-- Split a character list on `/`, keeping empty segments (the behavior
of `split("/")`). -/
def splitSlash : List Char → List Char → List String
  | [], cur => [String.mk cur.reverse]
  | c :: rest, cur =>
      if c = '/' then String.mk cur.reverse :: splitSlash rest []
      else splitSlash rest (c :: cur)

/-! ## DownloadTracker (src/downloadTracker.ts) -/

/-- Persisted download record (src/downloadTracker.ts `DownloadMetadata`). -/
structure DownloadMetadata where
  itemId : String
  itemName : String
  category : String
  repoOwner : String
  repoName : String
  repoBaseUrl : Option String := none
  downloadTimestamp : Int
  sha : String
  size : Int
  downloadUrl : String
deriving DecidableEq, Repr

/-- A tree/catalog item (src/types.ts `CopilotItem`). -/
structure CopilotItem where
  id : String
  name : String
  category : CopilotCategory
  file : GitHubFile
  content : Option String := none
  repo : RepoSource
deriving DecidableEq, Repr

/-- The download ledger keyed by item id (`globalState` record). -/
abbrev Downloads := List (String × DownloadMetadata)

/-- `getDownloadMetadata`: lookup of a record by item id. -/
def lookupDownload (d : Downloads) (itemId : String) : Option DownloadMetadata :=
  (List.find? (fun p => p.1 = itemId) d).map (·.2)

/-- Core comparison of `DownloadTracker.hasUpdate` once the record was
found: the sha comparison runs only when both the remote sha and the
recorded sha are truthy (non-empty); otherwise the size comparison is the
fallback. -/
def hasUpdateWith (m : DownloadMetadata) (f : GitHubFile) : Bool :=
  if truthyStrOpt f.sha && decide (m.sha ≠ "") && decide (f.sha.getD "" ≠ m.sha) then
    true
  else
    decide (f.size ≠ m.size)

/-- `DownloadTracker.hasUpdate`: items without a persisted record report
no update. -/
def hasUpdate (d : Downloads) (item : CopilotItem) : Bool :=
  match lookupDownload d item.id with
  | none => false
  | some m => hasUpdateWith m item.file

/-- `DownloadTracker.findItemsWithUpdates`: collect the items for which
`hasUpdate` holds, in input order. -/
def findItemsWithUpdates (d : Downloads) (allItems : List CopilotItem) : List CopilotItem :=
  allItems.filter (hasUpdate d)

/-! ## GitHubService cache and listing (src/githubService.ts) -/

/-- One cache record (src/types.ts `CacheEntry`). -/
structure CacheEntry where
  data : List GitHubFile
  timestamp : Int
  category : CopilotCategory
  repo : RepoSource
deriving DecidableEq, Repr

/-- The cache map, keyed by `repoKey|category` strings. -/
abbrev SvcState := List (String × CacheEntry)

/-- `GitHubService.CACHE_DURATION`: one hour in milliseconds. -/
def cacheDuration : Int := 60 * 60 * 1000

/-- The cache key string `repoKey|category` with
`repoKey = (baseUrl or github.com)/owner/repo`. -/
def cacheKey (repo : RepoSource) (category : CopilotCategory) : String :=
  (repo.baseUrl.getD "github.com") ++ "/" ++ repo.owner ++ "/" ++ repo.repo
    ++ "|" ++ categoryStr category

/-- `Map.get` on the cache. -/
def lookupCache (st : SvcState) (key : String) : Option CacheEntry :=
  (List.find? (fun p => p.1 = key) st).map (·.2)

/-- `Map.set` on the cache: replace an existing key or append. -/
def cacheSet (st : SvcState) (key : String) (e : CacheEntry) : SvcState :=
  if (List.find? (fun p => p.1 = key) st).isSome then
    List.map (fun p => if p.1 = key then (key, e) else p) st
  else
    st ++ [(key, e)]

/-- Outcome of one `axios.get` on a listing URL: a JSON array of entries,
a non-2xx HTTP status, or a network-level failure with no response. -/
inductive FetchResult where
  | ok (data : List GitHubFile)
  | httpErr (status : Nat)
  | netErr (desc : String)
deriving DecidableEq, Repr

/-- A transport failure other than 404 (`CategoryAbsent`). -/
def isTransportErr : FetchResult → Bool
  | .ok _ => false
  | .httpErr s => s ≠ 404
  | .netErr _ => true

/-- Result of one listing call as seen by the caller: a normal return or a
thrown `Error` with its message. -/
inductive ListingResult where
  | ok (files : List GitHubFile)
  | thrown (msg : String)
deriving DecidableEq, Repr

/-- Whether a listing call ended in a thrown error. -/
def isThrown : ListingResult → Bool
  | .ok _ => false
  | .thrown _ => true

/-- The per-category entry filter: for Skills the listing keeps
directories, for every other category it keeps files. -/
def typeKeep (category : CopilotCategory) (f : GitHubFile) : Bool :=
  match category with
  | .skills => f.ftype = .dir
  | _ => f.ftype = .file

/-- A short description of a failed fetch, standing for the JavaScript
stringification of the thrown error in `Failed to load ...: ${error}`. -/
def fetchErrDesc : FetchResult → String
  | .ok _ => ""
  | .httpErr s => "status " ++ toString s
  | .netErr d => d

/-- The message of the error thrown by `getFilesByRepo` on a non-404
failure. -/
def loadErrMsg (repo : RepoSource) (category : CopilotCategory) (r : FetchResult) : String :=
  "Failed to load " ++ categoryStr category ++ " from " ++ repo.owner ++ "/"
    ++ repo.repo ++ ": " ++ fetchErrDesc r

/-- The fetch-and-classify part of `getFilesByRepo`: on success filter,
tag with the repo and cache; on 404 return `[]` without caching; on any
other failure throw without caching.  The `Nat` component counts remote
fetch invocations. -/
def getFilesByRepoFetch (outcome : FetchResult) (st : SvcState) (repo : RepoSource)
    (category : CopilotCategory) (now : Int) (key : String) :
    ListingResult × SvcState × Nat :=
  match outcome with
  | .ok data =>
      let files := (data.filter (typeKeep category)).map (fun f => { f with repo := some repo })
      (.ok files, cacheSet st key ⟨files, now, category, repo⟩, 1)
  | .httpErr s =>
      if s = 404 then (.ok [], st, 1)
      else (.thrown (loadErrMsg repo category (.httpErr s)), st, 1)
  | .netErr d => (.thrown (loadErrMsg repo category (.netErr d)), st, 1)

/-- `GitHubService.getFilesByRepo`: serve a fresh cache record when
present and not force-refreshed, otherwise fetch. -/
def getFilesByRepo (outcome : FetchResult) (st : SvcState) (repo : RepoSource)
    (category : CopilotCategory) (now : Int) (forceRefresh : Bool) :
    ListingResult × SvcState × Nat :=
  let key := cacheKey repo category
  match lookupCache st key with
  | some e =>
      if !forceRefresh && decide (now - e.timestamp < cacheDuration) then
        (.ok e.data, st, 0)
      else getFilesByRepoFetch outcome st repo category now key
  | none => getFilesByRepoFetch outcome st repo category now key

/-- The `Failed to load ... from ...` status-bar warning text recorded by
`getFiles` for a failing source. -/
def warnMsg (repo : RepoSource) (category : CopilotCategory) (r : FetchResult) : String :=
  "Failed to load " ++ categoryStr category ++ " from " ++ repo.owner ++ "/"
    ++ repo.repo ++ ": " ++ fetchErrDesc r

/-- Number of occurrences of a filename in a listing batch (first pass of
the duplicate handling in `getFiles`). -/
def countName (l : List GitHubFile) (n : String) : Nat :=
  (l.filter (fun f => f.name = n)).length

/-- Second pass of the duplicate handling: duplicated names with a repo
tag get `name (owner/repo)`, every other entry gets its own name. -/
def setDisplayName (l : List GitHubFile) (f : GitHubFile) : GitHubFile :=
  if 2 ≤ countName l f.name then
    match f.repo with
    | some r =>
        { f with displayName := some (f.name ++ " (" ++ r.owner ++ "/" ++ r.repo ++ ")") }
    | none => { f with displayName := some f.name }
  else
    { f with displayName := some f.name }

/-- The duplicate-filename disambiguation pass at the end of
`GitHubService.getFiles`. -/
def disambiguate (l : List GitHubFile) : List GitHubFile :=
  l.map (setDisplayName l)

/-- The `try` body of one `getFiles` iteration together with its `catch`:
on success filter, tag, cache and append; on 404 skip the source silently
(only a debug log); on any other failure record a status-bar warning and
skip the source. -/
def getFilesStep (outcome : FetchResult) (st : SvcState) (repo : RepoSource)
    (category : CopilotCategory) (now : Int) (key : String) :
    List GitHubFile × SvcState × Nat × List String :=
  match outcome with
  | .ok data =>
      let files := (data.filter (typeKeep category)).map (fun f => { f with repo := some repo })
      (files, cacheSet st key ⟨files, now, category, repo⟩, 1, [])
  | .httpErr s =>
      if s = 404 then ([], st, 1, [])
      else ([], st, 1, [warnMsg repo category (.httpErr s)])
  | .netErr d => ([], st, 1, [warnMsg repo category (.netErr d)])

/-- The per-source loop of `GitHubService.getFiles`: a fresh cache record
is appended without fetching, otherwise the source is fetched via
`getFilesStep`.  Returns the concatenated files, the final cache, the
number of fetch invocations and the warnings, in source order. -/
def getFilesLoop (oc : Nat → FetchResult) (category : CopilotCategory) (now : Int)
    (forceRefresh : Bool) : List RepoSource → Nat → SvcState →
    List GitHubFile × SvcState × Nat × List String
  | [], _, st => ([], st, 0, [])
  | repo :: rest, i, st =>
      let key := cacheKey repo category
      let step : List GitHubFile × SvcState × Nat × List String :=
        match lookupCache st key with
        | some e =>
            if !forceRefresh && decide (now - e.timestamp < cacheDuration) then
              (e.data, st, 0, [])
            else getFilesStep (oc i) st repo category now key
        | none => getFilesStep (oc i) st repo category now key
      let tail := getFilesLoop oc category now forceRefresh rest (i + 1) step.2.1
      (step.1 ++ tail.1, tail.2.1, step.2.2.1 + tail.2.2.1, step.2.2.2 ++ tail.2.2.2)

/-- `GitHubService.getFiles`: run the per-source loop over the configured
sources, then disambiguate duplicate filenames over the merged batch.
The function catches every per-source failure, so its result is always a
normal return. -/
def getFiles (oc : Nat → FetchResult) (sources : List RepoSource) (st : SvcState)
    (category : CopilotCategory) (now : Int) (forceRefresh : Bool) :
    ListingResult × SvcState × Nat × List String :=
  let r := getFilesLoop oc category now forceRefresh sources 0 st
  (.ok (disambiguate r.1), r.2.1, r.2.2.1, r.2.2.2)

/-! ## Recursive directory listing (`GitHubService.getDirectoryContents`) -/

/-- One step of POSIX path normalization over a reversed segment stack:
empty and `.` segments are dropped, `..` pops the previous segment when
one is available (and is dropped at the root of an absolute path). -/
def normStep (abs : Bool) (stack : List String) (seg : String) : List String :=
  if seg = "" || seg = "." then stack
  else if seg = ".." then
    match stack with
    | [] => if abs then [] else [".."]
    | top :: rest => if top = ".." then seg :: stack else rest
  else seg :: stack

/-- Node `path.join(a, b)` for POSIX paths: concatenate with a separator
and normalize `.` and `..` segments lexically. -/
def pathJoin (a b : String) : String :=
  let s := a ++ "/" ++ b
  let abs := strStartsWith s "/"
  let stack := (splitSlash s.data []).foldl (normStep abs) []
  let body := String.intercalate "/" stack.reverse
  if abs then (if body = "" then "/" else "/" ++ body)
  else (if body = "" then "." else body)

/-- The relative path computed for one file of a skill folder in
`downloadCopilotItem`: strip the skill-folder prefix when present,
otherwise use the entry path verbatim. -/
def skillRelativePath (itemPath filePath : String) : String :=
  let skillFolderPath := if strEndsWith itemPath "/" then itemPath else itemPath ++ "/"
  if strStartsWith filePath skillFolderPath then
    filePath.drop skillFolderPath.length
  else filePath

/-- The write targets of the skill-folder branch of `downloadCopilotItem`:
for every file entry of the recursive listing, the target path is the join
of the target skill folder and the computed relative path.  Every target
is written; no entry is rejected and no failure is recorded. -/
def skillWriteTargets (itemPath targetSkillPath : String) (contents : List GitHubFile) :
    List String :=
  (contents.filter (fun f => f.ftype = .file)).map
    (fun f => pathJoin targetSkillPath (skillRelativePath itemPath f.path))

/-- Lexical containment of a path in a root directory. -/
def isWithin (root p : String) : Bool :=
  p = root || strStartsWith p (root ++ "/")

/-- The body of `GitHubService.getDirectoryContents` over the entries of
one listing response: push each entry tagged with the repo, and expand
directory entries recursively.  The `Nat` argument is fuel standing for
the remaining recursion depth; the source has no such bound, so `none`
(fuel exhaustion at every depth) models non-termination. -/
def expandItems (listing : String → List GitHubFile) (repo : RepoSource) :
    Nat → List GitHubFile → Option (List GitHubFile)
  | _, [] => some []
  | n, it :: rest => do
      let sub ←
        if it.ftype = .dir then
          match n with
          | 0 => none
          | m + 1 => expandItems listing repo m (listing it.path)
        else
          some []
      let tail ← expandItems listing repo n rest
      some ({ it with repo := some repo } :: (sub ++ tail))
termination_by n l => (n, l.length)

/-- `GitHubService.getDirectoryContents`, fuelled: fetch the listing of
the path and expand each entry; directory entries recurse on their own
path. -/
def getDirectoryContents (listing : String → List GitHubFile) (repo : RepoSource)
    (fuel : Nat) (p : String) : Option (List GitHubFile) :=
  match fuel with
  | 0 => none
  | n + 1 => expandItems listing repo n (listing p)

/-! ## Collection download loop (`downloadCopilotItem`, collections branch) -/

/-- A thrown JavaScript value as inspected by the `catch` block of the
collection item loop: an axios error (optional response status, optional
transport error code), a plain `Error` with a message, or any other
value. -/
inductive JsError where
  | axios (respStatus : Option Nat) (code : Option String)
  | jsErr (msg : String)
  | other
deriving DecidableEq, Repr

/-- The transport error codes treated as network failures. -/
def networkCodes : List String := ["ENOTFOUND", "ECONNREFUSED", "ECONNRESET", "ETIMEDOUT"]

/-- The failure-reason classification of the collection item loop:
axios 404 is a not-found failure, a missing response or a known transport
code is a network failure, any other response status is an HTTP failure;
a plain `Error` contributes its message; anything else stays at the
initial `Unknown error`.  A response status of 0 is falsy in JavaScript
and also falls back to `Unknown error`. -/
def classifyFailure : JsError → String
  | .axios respStatus code =>
      if respStatus = some 404 then
        "File not found in repository (check YAML path and repository contents)."
      else if respStatus = none || code.any (fun c => networkCodes.contains c) then
        "Network error while downloading file (check internet connection or GitHub availability)."
      else
        match respStatus with
        | some s =>
            if s = 0 then "Unknown error"
            else "HTTP error " ++ toString s ++ " while downloading file."
        | none => "Unknown error"
  | .jsErr m => m
  | .other => "Unknown error"

/-- One declared item of a collection manifest
(`{ path, kind }`). -/
structure CollectionItem where
  path : String
  kind : String
deriving DecidableEq, Repr

/-- The kind-to-category switch of the collection loop; an unknown kind
yields `none` and the loop skips the item with only a warning log. -/
def kindToCategory : String → Option CopilotCategory
  | "instruction" => some .instructions
  | "prompt" => some .prompts
  | "agent" => some .agents
  | "skill" => some .skills
  | _ => none

/-- Node `path.basename` restricted to forward-slash paths: the last
non-empty segment, the input itself when there is none. -/
def basename (p : String) : String :=
  ((((splitSlash p.data []).filter (fun s => s ≠ ""))).getLast?).getD p

/-- The matching predicate of the collection loop: a skill item matches a
listing entry whose (truthy) path equals the declared path or lies under
it; every other kind matches by filename. -/
def findMatching (isSkill : Bool) (itemPath fileName : String) (files : List GitHubFile) :
    Option GitHubFile :=
  files.find? (fun file =>
    if isSkill then
      if file.path = "" then false
      else file.path = itemPath || strStartsWith file.path (itemPath ++ "/")
    else file.name = fileName)

/-- The message of the `Error` thrown when no listing entry matches a
collection item. -/
def noMatchMsg (isSkill : Bool) (itemPath fileName : String) (category : CopilotCategory) :
    String :=
  if isSkill then
    "Skill at path " ++ itemPath ++ " not found in " ++ categoryStr category ++ " category"
  else
    "File " ++ fileName ++ " not found in " ++ categoryStr category ++ " category"

/-- Results of the effectful steps of one collection item: the category
listing fetch, the raw content download, and the file write.  Each is an
oracle value; a `JsError` on the left is the thrown value the `catch`
block receives. -/
structure ItemOracle where
  listing : Except JsError (List GitHubFile)
  download : Except JsError String
  write : Except JsError Unit

/-- The failed-files entry format `kind: path - reason` (the source uses
an en dash). -/
def failEntry (it : CollectionItem) (reason : String) : String :=
  it.kind ++ ": " ++ it.path ++ " – " ++ reason

/-- Outcome of one iteration of the collection download loop. -/
inductive StepOut where
  | success (entry : String)
  | failure (entry : String)
  | skipped
deriving DecidableEq, Repr

/-- One iteration of the collection download loop: map the kind to a
category (unknown kinds are skipped), fetch the category listing, find
the matching entry, download and write; every thrown error is caught,
classified and turned into a failed-files entry. -/
def processItem (oc : ItemOracle) (it : CollectionItem) : StepOut :=
  match kindToCategory it.kind with
  | none => .skipped
  | some category =>
      let isSkill := it.kind = "skill"
      let fileName := basename it.path
      match oc.listing with
      | .error e => .failure (failEntry it (classifyFailure e))
      | .ok files =>
          match findMatching isSkill it.path fileName files with
          | none =>
              .failure (failEntry it (classifyFailure
                (.jsErr (noMatchMsg isSkill it.path fileName category))))
          | some _ =>
              match oc.download with
              | .error e => .failure (failEntry it (classifyFailure e))
              | .ok _ =>
                  match oc.write with
                  | .error e => .failure (failEntry it (classifyFailure e))
                  | .ok _ => .success (it.kind ++ ": " ++ fileName)

/-- The collection download loop from item index `i`: accumulate the
`downloadedFiles` and `failedFiles` lists in item order; no iteration
aborts the rest. -/
def downloadCollectionFrom (oc : Nat → ItemOracle) (i : Nat) :
    List CollectionItem → List String × List String
  | [] => ([], [])
  | it :: rest =>
      let tail := downloadCollectionFrom oc (i + 1) rest
      match processItem (oc i) it with
      | .success s => (s :: tail.1, tail.2)
      | .failure s => (tail.1, s :: tail.2)
      | .skipped => tail

/-- The whole collection download loop over the manifest items. -/
def downloadCollection (oc : Nat → ItemOracle) (items : List CollectionItem) :
    List String × List String :=
  downloadCollectionFrom oc 0 items

/-! ## Collection manifest validation (`parseCollectionYaml`) -/

/-- A parsed YAML field value as far as the validation inspects it: a
string, a list of item mappings, or any other shape. -/
inductive YamlVal where
  | str (s : String)
  | arr (items : List CollectionItem)
  | otherVal
deriving DecidableEq, Repr

/-- The top-level mapping of a collection document; each field is absent
or holds a value. -/
structure RawCollection where
  id : Option YamlVal := none
  name : Option YamlVal := none
  description : Option YamlVal := none
  items : Option YamlVal := none
deriving DecidableEq, Repr

/-- Validated collection metadata. -/
structure CollectionMetadata where
  id : String
  name : String
  description : String
  items : List CollectionItem
deriving DecidableEq, Repr

/-- Modelled from the spec: the validation part of
`GitHubService.parseCollectionYaml`, whose implementation is not under
src/, only its test suite and its call site.  Each required field is
checked in order — `id` a non-empty string, `name` non-empty after
trimming, `description` non-empty after trimming, `items` present and a
list — with the field-specific messages asserted by the repository's
parseCollectionYaml test suite; non-mapping input is rejected with a
generic format error, and every error is wrapped in the
`Failed to parse collection YAML` prefix. -/
def validateCollection : Option RawCollection → Except String CollectionMetadata
  | none => .error "Failed to parse collection YAML: Invalid collection YAML format"
  | some d =>
      match d.id with
      | some (.str i) =>
          if i = "" then
            .error "Failed to parse collection YAML: missing or invalid \"id\" field"
          else
            match d.name with
            | some (.str n) =>
                if trimStr n = "" then
                  .error "Failed to parse collection YAML: missing or invalid \"name\" field"
                else
                  match d.description with
                  | some (.str ds) =>
                      if trimStr ds = "" then
                        .error
                          "Failed to parse collection YAML: missing or invalid \"description\" field"
                      else
                        match d.items with
                        | some (.arr l) => .ok ⟨i, n, ds, l⟩
                        | _ =>
                            .error
                              "Failed to parse collection YAML: missing or invalid \"items\" array"
                  | _ =>
                      .error
                        "Failed to parse collection YAML: missing or invalid \"description\" field"
            | _ => .error "Failed to parse collection YAML: missing or invalid \"name\" field"
      | _ => .error "Failed to parse collection YAML: missing or invalid \"id\" field"

/-! ## Concrete fixtures used by witnesses and counterexamples -/

/-- A sample source. -/
def sampleRepo : RepoSource := ⟨"acme", "kit", none, none⟩

/-- A sample prompt file entry. -/
def samplePromptFile : GitHubFile := ⟨"a.md", "prompts/a.md", "u", 10, .file, none, none, none⟩

/-- A sample cache record for `sampleRepo` and the prompts category. -/
def sampleEntry : CacheEntry := ⟨[samplePromptFile], 0, .prompts, sampleRepo⟩

/-- A cache holding exactly `sampleEntry`. -/
def sampleState : SvcState := [(cacheKey sampleRepo .prompts, sampleEntry)]

/-- A directory entry whose path equals the path it is listed under,
making the listing self-referential. -/
def selfItem : GitHubFile := ⟨"a", "p", "u", 1, .dir, none, none, none⟩

/-- The self-referential listing: every path lists `selfItem`. -/
def selfListing : String → List GitHubFile := fun _ => [selfItem]

/-- A well-formed two-level listing: `s` contains the directory `s/a`,
which is empty. -/
def sampleListing : String → List GitHubFile :=
  fun q => if q = "s" then [⟨"a", "s/a", "u", 1, .dir, none, none, none⟩] else []

/-! ## Helper lemmas -/

/-- A list containing two different elements has length at least two. -/
theorem two_le_length_of_mem_ne {α : Type} {a b : α} :
    ∀ {s : List α}, a ∈ s → b ∈ s → a ≠ b → 2 ≤ s.length := by
  intro s
  induction s with
  | nil => intro ha; cases ha
  | cons x t ih =>
      intro ha hb hne
      rcases List.mem_cons.mp ha with ha1 | ha2
      · rcases List.mem_cons.mp hb with hb1 | hb2
        · exact absurd (ha1.trans hb1.symm) hne
        · have : 1 ≤ t.length := List.length_pos.mpr (List.ne_nil_of_mem hb2)
          simp only [List.length_cons]
          omega
      · have : 1 ≤ t.length := List.length_pos.mpr (List.ne_nil_of_mem ha2)
        simp only [List.length_cons]
        omega

/-- Filtering by a conjunction equals filtering twice. -/
theorem filter_and_eq {α : Type} (p q : α → Bool) :
    ∀ l : List α, l.filter (fun a => p a && q a) = (l.filter p).filter q := by
  intro l
  induction l with
  | nil => rfl
  | cons x t ih =>
      by_cases hp : p x = true
      · by_cases hq : q x = true
        · simp [List.filter_cons, hp, hq, ih]
        · simp [List.filter_cons, hp, hq, ih]
      · simp [List.filter_cons, hp, ih]

/-! ## C6: drift detection -/

/-- C6 counterexample: the claim states that a present live revision
marker differing from the recorded one always yields true, but when the
recorded sha is the empty string the source skips the sha comparison and
falls back to sizes: a record with sha `""` and size 10 against a live
entry with sha `"abc"` and size 10 gives false. -/
theorem hasUpdate_presentLiveSha_counterexample :
    ¬ (∀ (m : DownloadMetadata) (f : GitHubFile),
        truthyStrOpt f.sha = true → f.sha.getD "" ≠ m.sha → hasUpdateWith m f = true) := by
  intro h
  have hc := h ⟨"i", "n", "c", "o", "r", none, 0, "", 10, "u"⟩
      ⟨"a.md", "p", "u", 10, .file, some "abc", none, none⟩ (by decide) (by decide)
  exact absurd hc (by decide)

/-- C6 (amended): drift detection returns true exactly when both the
live and the recorded revision markers are non-empty and differ, or else
when the sizes differ; in particular differing non-empty shas give true,
an absent live sha with differing sizes gives true, and identical sha and
size give false. -/
theorem hasUpdateWith_signal_characterization :
    (∀ (m : DownloadMetadata) (f : GitHubFile),
        hasUpdateWith m f =
          ((truthyStrOpt f.sha && decide (m.sha ≠ "") && decide (f.sha.getD "" ≠ m.sha))
            || decide (f.size ≠ m.size))) ∧
    hasUpdateWith ⟨"i", "n", "c", "o", "r", none, 0, "abc", 10, "u"⟩
        ⟨"a.md", "p", "u", 10, .file, some "def", none, none⟩ = true ∧
    hasUpdateWith ⟨"i", "n", "c", "o", "r", none, 0, "abc", 10, "u"⟩
        ⟨"a.md", "p", "u", 20, .file, none, none, none⟩ = true ∧
    hasUpdateWith ⟨"i", "n", "c", "o", "r", none, 0, "abc", 10, "u"⟩
        ⟨"a.md", "p", "u", 10, .file, some "abc", none, none⟩ = false := by
  refine ⟨?_, by decide, by decide, by decide⟩
  intro m f
  unfold hasUpdateWith
  cases hc : (truthyStrOpt f.sha && decide (m.sha ≠ "") && decide (f.sha.getD "" ≠ m.sha)) <;>
    simp [hc]

/-! ## C10: updates only reported for downloaded items -/

/-- C10: an item without a persisted download record never reports an
update, hence the items reported by `findItemsWithUpdates` form a subset
of the input items that do have a download record. -/
theorem updates_only_for_downloaded (d : Downloads) (items : List CopilotItem) :
    (∀ item : CopilotItem, lookupDownload d item.id = none → hasUpdate d item = false) ∧
    ∀ item ∈ findItemsWithUpdates d items,
      item ∈ items ∧ (lookupDownload d item.id).isSome = true := by
  constructor
  · intro item h
    simp [hasUpdate, h]
  · intro item hm
    rw [findItemsWithUpdates, List.mem_filter] at hm
    refine ⟨hm.1, ?_⟩
    cases hl : lookupDownload d item.id with
    | none =>
        have h2 := hm.2
        unfold hasUpdate at h2
        rw [hl] at h2
        simp at h2
    | some m => rfl

/-- C10 witness. -/
theorem updates_only_for_downloaded_witness :
    hasUpdate [] ⟨"id1", "a", .prompts, ⟨"a.md", "p", "u", 1, .file, none, none, none⟩, none,
      ⟨"o", "r", none, none⟩⟩ = false :=
  (updates_only_for_downloaded [] []).1 _ rfl

/-! ## C1: skill-folder path traversal -/

/-- C1: for the skill rooted at `skills/my-skill` downloaded to
`/ws/.github/skills/my-skill`, a recursive listing entry with path
`../../etc/passwd` is not rejected: its write target resolves to
`/ws/.github/etc/passwd`, which lies outside the target skill folder, and
no `FilesystemError` is recorded (the skill branch records no per-file
failures at all). -/
theorem skill_download_traversal_escapes_target :
    skillWriteTargets "skills/my-skill" "/ws/.github/skills/my-skill"
        [⟨"passwd", "../../etc/passwd", "u", 1, .file, none, none, none⟩]
      = ["/ws/.github/etc/passwd"] ∧
    isWithin "/ws/.github/skills/my-skill" "/ws/.github/etc/passwd" = false := by
  exact ⟨by decide, by decide⟩

/-! ## C5: cache freshness window -/

/-- Transport outcomes always count one fetch in the fetch path. -/
theorem getFilesByRepoFetch_count (outcome : FetchResult) (st : SvcState)
    (repo : RepoSource) (category : CopilotCategory) (now : Int) (key : String) :
    (getFilesByRepoFetch outcome st repo category now key).2.2 = 1 := by
  cases outcome with
  | ok d => rfl
  | httpErr s =>
      by_cases h : s = 404 <;> simp [getFilesByRepoFetch, h]
  | netErr d => rfl

/-- C5: with a cache record fetched at `t0`, a non-force-refresh call
strictly before `t0 + TTL` returns the cached entries without invoking
the remote fetcher, and a call at or after `t0 + TTL` invokes the
fetcher (exactly one invocation). -/
theorem cache_freshness (outcome : FetchResult) (st : SvcState) (repo : RepoSource)
    (category : CopilotCategory) (now : Int) (e : CacheEntry)
    (hc : lookupCache st (cacheKey repo category) = some e) :
    (now < e.timestamp + cacheDuration →
      getFilesByRepo outcome st repo category now false = (.ok e.data, st, 0)) ∧
    (e.timestamp + cacheDuration ≤ now →
      (getFilesByRepo outcome st repo category now false).2.2 = 1) := by
  constructor
  · intro hfresh
    have hd : now - e.timestamp < cacheDuration := by omega
    simp [getFilesByRepo, hc, hd]
  · intro hstale
    have hd : ¬ (now - e.timestamp < cacheDuration) := by omega
    simp [getFilesByRepo, hc, hd, getFilesByRepoFetch_count]

/-- C5 witness. -/
theorem cache_freshness_witness :
    getFilesByRepo (.httpErr 500) sampleState sampleRepo .prompts 3599999 false
      = (.ok [samplePromptFile], sampleState, 0) ∧
    (getFilesByRepo (.httpErr 500) sampleState sampleRepo .prompts 3600000 false).2.2 = 1 := by
  refine ⟨?_, ?_⟩
  · exact (cache_freshness (.httpErr 500) sampleState sampleRepo .prompts 3599999 sampleEntry
      (by decide)).1 (by decide)
  · exact (cache_freshness (.httpErr 500) sampleState sampleRepo .prompts 3600000 sampleEntry
      (by decide)).2 (by decide)

/-! ## C2: 404 listings -/

/-- C2 counterexample: with an empty cache, two consecutive
non-force-refresh `getFilesByRepo` calls that both receive HTTP 404 each
return the empty list but invoke the remote fetcher twice in total: the
404 result is never written to the cache, contradicting the claimed
at-most-one invocation within the TTL window. -/
theorem category404_two_calls_two_fetches :
    (getFilesByRepo (.httpErr 404) [] sampleRepo .instructions 0 false).1 = .ok [] ∧
    (getFilesByRepo (.httpErr 404)
        (getFilesByRepo (.httpErr 404) [] sampleRepo .instructions 0 false).2.1
        sampleRepo .instructions 1 false).1 = .ok [] ∧
    (getFilesByRepo (.httpErr 404) [] sampleRepo .instructions 0 false).2.2
      + (getFilesByRepo (.httpErr 404)
          (getFilesByRepo (.httpErr 404) [] sampleRepo .instructions 0 false).2.1
          sampleRepo .instructions 1 false).2.2 = 2 ∧
    ¬ ((getFilesByRepo (.httpErr 404) [] sampleRepo .instructions 0 false).2.2
        + (getFilesByRepo (.httpErr 404)
            (getFilesByRepo (.httpErr 404) [] sampleRepo .instructions 0 false).2.1
            sampleRepo .instructions 1 false).2.2 ≤ 1) := by
  refine ⟨by decide, by decide, by decide, by decide⟩

/-- C2 (amended): a 404 listing fetch is treated as an empty listing and
returned as `[]`, but it is not cached: with no cache record for the
key, the call invokes the fetcher once and leaves the cache unchanged,
so each later non-force-refresh call fetches again. -/
theorem category404_empty_not_cached (st : SvcState) (repo : RepoSource)
    (category : CopilotCategory) (now : Int)
    (h : lookupCache st (cacheKey repo category) = none) :
    getFilesByRepo (.httpErr 404) st repo category now false = (.ok [], st, 1) := by
  simp [getFilesByRepo, h, getFilesByRepoFetch]

/-- C2 witness. -/
theorem category404_empty_not_cached_witness :
    getFilesByRepo (.httpErr 404) [] sampleRepo .instructions 5 false = (.ok [], [], 1) :=
  category404_empty_not_cached [] sampleRepo .instructions 5 (by decide)

/-! ## C7: transport failures -/

/-- C7 counterexample: the claim requires a non-404 listing failure to be
propagated to the immediate caller, but `getFiles` swallows it: with a
single source whose fetch fails with HTTP 500, `getFiles` returns a
normal (non-thrown) empty merged listing and only records a warning. -/
theorem transport_error_not_propagated_by_getFiles :
    ¬ (∀ (oc : Nat → FetchResult) (sources : List RepoSource) (st : SvcState)
        (category : CopilotCategory) (now : Int),
        (∀ i, isTransportErr (oc i) = true) → sources ≠ [] →
        isThrown (getFiles oc sources st category now false).1 = true) := by
  intro h
  have hc := h (fun _ => .httpErr 500) [sampleRepo] [] .instructions 0
      (fun _ => rfl) (by simp)
  exact absurd hc (by decide)

/-- On a transport failure the fetch path of `getFilesByRepo` throws and
leaves the cache unchanged. -/
theorem getFilesByRepoFetch_transport (outcome : FetchResult) (st : SvcState)
    (repo : RepoSource) (category : CopilotCategory) (now : Int) (key : String)
    (ht : isTransportErr outcome = true) :
    isThrown (getFilesByRepoFetch outcome st repo category now key).1 = true ∧
    (getFilesByRepoFetch outcome st repo category now key).2.1 = st := by
  cases outcome with
  | ok d => simp [isTransportErr] at ht
  | httpErr s =>
      have hs : ¬ (s = 404) := by simpa [isTransportErr] using ht
      simp [getFilesByRepoFetch, hs, isThrown]
  | netErr d => simp [getFilesByRepoFetch, isThrown]

/-- On a transport failure one `getFiles` iteration contributes no files,
leaves the cache unchanged, counts one fetch and records one warning. -/
theorem getFilesStep_transport (outcome : FetchResult) (st : SvcState)
    (repo : RepoSource) (category : CopilotCategory) (now : Int) (key : String)
    (ht : isTransportErr outcome = true) :
    getFilesStep outcome st repo category now key
      = ([], st, 1, [warnMsg repo category outcome]) := by
  cases outcome with
  | ok d => simp [isTransportErr] at ht
  | httpErr s =>
      have hs : ¬ (s = 404) := by simpa [isTransportErr] using ht
      simp [getFilesStep, hs]
  | netErr d => simp [getFilesStep]

/-- When every fetch fails with a transport error and no source has a
cache record, the `getFiles` loop returns no files, leaves the cache
unchanged, and counts one fetch and one warning per source. -/
theorem getFilesLoop_transport (oc : Nat → FetchResult) (category : CopilotCategory)
    (now : Int) :
    ∀ (sources : List RepoSource) (i : Nat) (st : SvcState),
      (∀ j, isTransportErr (oc j) = true) →
      (∀ r ∈ sources, lookupCache st (cacheKey r category) = none) →
      (getFilesLoop oc category now false sources i st).1 = [] ∧
      (getFilesLoop oc category now false sources i st).2.1 = st ∧
      (getFilesLoop oc category now false sources i st).2.2.1 = sources.length ∧
      (getFilesLoop oc category now false sources i st).2.2.2.length = sources.length := by
  intro sources
  induction sources with
  | nil => intro i st _ _; simp [getFilesLoop]
  | cons repo rest ih =>
      intro i st hoc hmiss
      have hm : lookupCache st (cacheKey repo category) = none :=
        hmiss repo (List.mem_cons_self _ _)
      have hstep := getFilesStep_transport (oc i) st repo category now
        (cacheKey repo category) (hoc i)
      have hrest := ih (i + 1) st hoc (fun r hr => hmiss r (List.mem_cons_of_mem _ hr))
      refine ⟨?_, ?_, ?_, ?_⟩ <;>
        simp [getFilesLoop, hm, hstep, hrest.1, hrest.2.1, hrest.2.2.1, hrest.2.2.2]
      omega

/-- C7 (amended): on a non-404 listing failure nothing is written to the
cache and any prior record is left unchanged; `getFilesByRepo` propagates
the error to its caller, while `getFiles` does not propagate it — it
records a warning for each failing source, omits those sources from the
merged result, and returns normally. -/
theorem transport_error_cache_untouched (outcome : FetchResult) (st : SvcState)
    (repo : RepoSource) (category : CopilotCategory) (now : Int)
    (ht : isTransportErr outcome = true)
    (hstale : ∀ e, lookupCache st (cacheKey repo category) = some e →
        e.timestamp + cacheDuration ≤ now) :
    (isThrown (getFilesByRepo outcome st repo category now false).1 = true ∧
      (getFilesByRepo outcome st repo category now false).2.1 = st) ∧
    ∀ (oc : Nat → FetchResult) (sources : List RepoSource),
      (∀ i, isTransportErr (oc i) = true) →
      (∀ r ∈ sources, lookupCache st (cacheKey r category) = none) →
      (getFiles oc sources st category now false).1 = .ok [] ∧
      (getFiles oc sources st category now false).2.1 = st ∧
      (getFiles oc sources st category now false).2.2.2.length = sources.length := by
  constructor
  · cases hl : lookupCache st (cacheKey repo category) with
    | none =>
        have h := getFilesByRepoFetch_transport outcome st repo category now
          (cacheKey repo category) ht
        simpa [getFilesByRepo, hl] using h
    | some e =>
        have hd : ¬ (now - e.timestamp < cacheDuration) := by
          have := hstale e hl
          omega
        have h := getFilesByRepoFetch_transport outcome st repo category now
          (cacheKey repo category) ht
        simpa [getFilesByRepo, hl, hd] using h
  · intro oc sources hoc hmiss
    have h := getFilesLoop_transport oc category now sources 0 st hoc hmiss
    refine ⟨?_, ?_, ?_⟩
    · simp [getFiles, h.1, disambiguate]
    · simp [getFiles, h.2.1]
    · simp [getFiles, h.2.2.2]

/-- C7 witness. -/
theorem transport_error_cache_untouched_witness :
    isThrown (getFilesByRepo (.httpErr 500) [] sampleRepo .instructions 0 false).1 = true ∧
    (getFiles (fun _ => .netErr "ETIMEDOUT") [sampleRepo] [] .instructions 0 false).2.1
      = [] := by
  have h := transport_error_cache_untouched (.httpErr 500) [] sampleRepo .instructions 0
    (by decide) (fun e he => by simp [lookupCache] at he)
  exact ⟨h.1.1, (h.2 (fun _ => .netErr "ETIMEDOUT") [sampleRepo]
    (fun _ => rfl) (fun r hr => rfl)).2.1⟩

/-! ## C4: manifest validation -/

/-- C4 counterexample: a manifest with a missing `id` and one with an
empty `id` — two different violations from the claimed list — produce the
identical error message, as the repository's parseCollectionYaml test
suite asserts, so the eight violations do not each get a pairwise
distinct error. -/
theorem manifest_missing_and_empty_id_conflated :
    validateCollection (some ⟨none, some (.str "Test Collection"),
        some (.str "A test collection"), some (.arr [⟨"test.md", "instruction"⟩])⟩)
      = .error "Failed to parse collection YAML: missing or invalid \"id\" field" ∧
    validateCollection (some ⟨some (.str ""), some (.str "Test Collection"),
        some (.str "A test collection"), some (.arr [⟨"test.md", "instruction"⟩])⟩)
      = .error "Failed to parse collection YAML: missing or invalid \"id\" field" ∧
    (⟨none, some (.str "Test Collection"), some (.str "A test collection"),
        some (.arr [⟨"test.md", "instruction"⟩])⟩ : RawCollection)
      ≠ ⟨some (.str ""), some (.str "Test Collection"), some (.str "A test collection"),
        some (.arr [⟨"test.md", "instruction"⟩])⟩ := by
  refine ⟨rfl, rfl, by decide⟩

/-- C4 (amended): each of the eight violations produces an error naming
the violated field; violations of different fields are never conflated —
the four field messages are pairwise distinct — while a missing and an
empty value of the same field share that field's message; a manifest
with an empty items list is accepted. -/
theorem manifest_validation_field_errors :
    validateCollection (some ⟨none, some (.str "Test Collection"),
        some (.str "A test collection"), some (.arr [⟨"test.md", "instruction"⟩])⟩)
      = .error "Failed to parse collection YAML: missing or invalid \"id\" field" ∧
    validateCollection (some ⟨some (.str ""), some (.str "Test Collection"),
        some (.str "A test collection"), some (.arr [⟨"test.md", "instruction"⟩])⟩)
      = .error "Failed to parse collection YAML: missing or invalid \"id\" field" ∧
    validateCollection (some ⟨some (.str "test-collection"), none,
        some (.str "A test collection"), some (.arr [⟨"test.md", "instruction"⟩])⟩)
      = .error "Failed to parse collection YAML: missing or invalid \"name\" field" ∧
    validateCollection (some ⟨some (.str "test-collection"), some (.str "   "),
        some (.str "A test collection"), some (.arr [⟨"test.md", "instruction"⟩])⟩)
      = .error "Failed to parse collection YAML: missing or invalid \"name\" field" ∧
    validateCollection (some ⟨some (.str "test-collection"), some (.str "Test Collection"),
        none, some (.arr [⟨"test.md", "instruction"⟩])⟩)
      = .error "Failed to parse collection YAML: missing or invalid \"description\" field" ∧
    validateCollection (some ⟨some (.str "test-collection"), some (.str "Test Collection"),
        some (.str ""), some (.arr [⟨"test.md", "instruction"⟩])⟩)
      = .error "Failed to parse collection YAML: missing or invalid \"description\" field" ∧
    validateCollection (some ⟨some (.str "test-collection"), some (.str "Test Collection"),
        some (.str "A test collection"), none⟩)
      = .error "Failed to parse collection YAML: missing or invalid \"items\" array" ∧
    validateCollection (some ⟨some (.str "test-collection"), some (.str "Test Collection"),
        some (.str "A test collection"), some (.str "not an array")⟩)
      = .error "Failed to parse collection YAML: missing or invalid \"items\" array" ∧
    validateCollection (some ⟨some (.str "test-collection"), some (.str "Test Collection"),
        some (.str "A test collection"), some (.arr [])⟩)
      = .ok ⟨"test-collection", "Test Collection", "A test collection", []⟩ ∧
    ("Failed to parse collection YAML: missing or invalid \"id\" field" : String)
        ≠ "Failed to parse collection YAML: missing or invalid \"name\" field" ∧
    ("Failed to parse collection YAML: missing or invalid \"id\" field" : String)
        ≠ "Failed to parse collection YAML: missing or invalid \"description\" field" ∧
    ("Failed to parse collection YAML: missing or invalid \"id\" field" : String)
        ≠ "Failed to parse collection YAML: missing or invalid \"items\" array" ∧
    ("Failed to parse collection YAML: missing or invalid \"name\" field" : String)
        ≠ "Failed to parse collection YAML: missing or invalid \"description\" field" ∧
    ("Failed to parse collection YAML: missing or invalid \"name\" field" : String)
        ≠ "Failed to parse collection YAML: missing or invalid \"items\" array" ∧
    ("Failed to parse collection YAML: missing or invalid \"description\" field" : String)
        ≠ "Failed to parse collection YAML: missing or invalid \"items\" array" := by
  refine ⟨rfl, rfl, rfl, rfl, rfl, rfl, rfl, rfl, rfl,
    by decide, by decide, by decide, by decide, by decide, by decide⟩

/-! ## C3: collection download with per-item failure tolerance -/

/-- The collection download loop from any start index equals the
independent per-item outcomes collected by filtering: no item outcome
influences another. -/
theorem downloadCollectionFrom_eq_filterMap (oc : Nat → ItemOracle) :
    ∀ (items : List CollectionItem) (i : Nat),
      downloadCollectionFrom oc i items =
        ((List.enumFrom i items).filterMap (fun p =>
            match processItem (oc p.1) p.2 with
            | .success s => some s
            | _ => none),
          (List.enumFrom i items).filterMap (fun p =>
            match processItem (oc p.1) p.2 with
            | .failure s => some s
            | _ => none)) := by
  intro items
  induction items with
  | nil => intro i; rfl
  | cons it rest ih =>
      intro i
      simp only [downloadCollectionFrom, ih (i + 1), List.enumFrom, List.filterMap_cons]
      cases h : processItem (oc i) it <;> simp [h]

/-- C3: during a collection download no single item failure aborts the
remaining items — the downloaded and failed lists are exactly the
independent per-item outcomes, in manifest order — and the failure
reasons are classified: 404 yields the not-found reason, a missing
response yields the network reason, any other HTTP status yields the
status-carrying reason, a thrown `Error` contributes its message, and the
three classes are pairwise distinct. -/
theorem collection_download_tolerates_failures (oc : Nat → ItemOracle)
    (items : List CollectionItem) :
    ((downloadCollection oc items).1 =
      (items.enum.filterMap (fun p =>
          match processItem (oc p.1) p.2 with
          | .success s => some s
          | _ => none))) ∧
    ((downloadCollection oc items).2 =
      (items.enum.filterMap (fun p =>
          match processItem (oc p.1) p.2 with
          | .failure s => some s
          | _ => none))) ∧
    (∀ c, classifyFailure (.axios (some 404) c)
      = "File not found in repository (check YAML path and repository contents).") ∧
    (∀ c, classifyFailure (.axios none c)
      = "Network error while downloading file (check internet connection or GitHub availability).") ∧
    (∀ s : Nat, s ≠ 404 → s ≠ 0 → classifyFailure (.axios (some s) none)
      = "HTTP error " ++ toString s ++ " while downloading file.") ∧
    (∀ m, classifyFailure (.jsErr m) = m) ∧
    (("File not found in repository (check YAML path and repository contents)." : String)
        ≠ "Network error while downloading file (check internet connection or GitHub availability)." ∧
      ("File not found in repository (check YAML path and repository contents)." : String)
        ≠ "HTTP error 500 while downloading file." ∧
      ("Network error while downloading file (check internet connection or GitHub availability)." : String)
        ≠ "HTTP error 500 while downloading file.") := by
  refine ⟨?_, ?_, ?_, ?_, ?_, fun m => rfl, by decide, by decide, by decide⟩
  · have h := downloadCollectionFrom_eq_filterMap oc items 0
    rw [downloadCollection, h]
    rfl
  · have h := downloadCollectionFrom_eq_filterMap oc items 0
    rw [downloadCollection, h]
    rfl
  · intro c
    rfl
  · intro c
    simp [classifyFailure]
  · intro s h404 h0
    simp [classifyFailure, h404, h0]

/-- C3 witness. -/
theorem collection_download_tolerates_failures_witness :
    (downloadCollection
        (fun _ => ⟨.ok [⟨"a.md", "instructions/a.md", "u", 10, .file, none, none, none⟩],
          .ok "content", .ok ()⟩)
        [⟨".github/instructions/a.md", "instruction"⟩,
          ⟨".github/instructions/missing.md", "instruction"⟩]).2
      = ["instruction: .github/instructions/missing.md – File missing.md not found in instructions category"] ∧
    classifyFailure (.axios (some 500) none) = "HTTP error 500 while downloading file." := by
  have h := collection_download_tolerates_failures
    (fun _ => ⟨.ok [⟨"a.md", "instructions/a.md", "u", 10, .file, none, none, none⟩],
      .ok "content", .ok ()⟩)
    [⟨".github/instructions/a.md", "instruction"⟩,
      ⟨".github/instructions/missing.md", "instruction"⟩]
  constructor
  · rw [h.2.1]
    rfl
  · exact h.2.2.2.2.1 500 (by decide) (by decide)

/-! ## C8: duplicate-filename disambiguation -/

/-- C8: in a merged listing batch in which no two entries share both
name and source, every entry gets a displayName; an entry whose name
occurs at least twice gets its name suffixed with its own source
identity, one such entry per source; an entry whose name is unique keeps
its plain name; and a name occurs at least twice exactly when it collides
with an entry from a different source. -/
theorem merged_listing_disambiguation (l : List GitHubFile)
    (huniq : ∀ f ∈ l,
      (l.filter (fun g => decide (g.name = f.name) && decide (g.repo = f.repo))).length ≤ 1) :
    (∀ g ∈ disambiguate l, g.displayName.isSome = true) ∧
    (∀ f ∈ l, ∀ r, f.repo = some r → 2 ≤ countName l f.name →
      setDisplayName l f =
        { f with displayName := some (f.name ++ " (" ++ r.owner ++ "/" ++ r.repo ++ ")") }) ∧
    (∀ f ∈ l, countName l f.name ≤ 1 →
      setDisplayName l f = { f with displayName := some f.name }) ∧
    (∀ f ∈ l, 2 ≤ countName l f.name → ∃ g ∈ l, g.name = f.name ∧ g.repo ≠ f.repo) ∧
    (∀ f g : GitHubFile, f ∈ l → g ∈ l → g.name = f.name → g.repo ≠ f.repo →
      2 ≤ countName l f.name) := by
  refine ⟨?_, ?_, ?_, ?_, ?_⟩
  · intro g hg
    obtain ⟨f, _, rfl⟩ := List.mem_map.mp hg
    by_cases h : 2 ≤ countName l f.name
    · cases hr : f.repo <;> simp [setDisplayName, h, hr]
    · simp [setDisplayName, h]
  · intro f _ r hr hc
    simp [setDisplayName, hc, hr]
  · intro f _ hc
    have h : ¬ (2 ≤ countName l f.name) := by omega
    simp [setDisplayName, h]
  · intro f hf hc
    by_contra hno
    push_neg at hno
    have hall : ∀ g ∈ l.filter (fun g => decide (g.name = f.name)),
        (fun g => decide (g.repo = f.repo)) g = true := by
      intro g hg
      have hg2 := List.mem_filter.mp hg
      have : g.repo = f.repo := hno g hg2.1 (by simpa using hg2.2)
      simpa using this
    have heq : (l.filter (fun g => decide (g.name = f.name))).filter
        (fun g => decide (g.repo = f.repo)) = l.filter (fun g => decide (g.name = f.name)) :=
      List.filter_eq_self.mpr hall
    have hle := huniq f hf
    rw [show (fun g => decide (g.name = f.name) && decide (g.repo = f.repo))
          = (fun g : GitHubFile => decide (g.name = f.name) && decide (g.repo = f.repo))
        from rfl,
      filter_and_eq (fun g : GitHubFile => decide (g.name = f.name))
        (fun g : GitHubFile => decide (g.repo = f.repo)) l, heq] at hle
    have : 2 ≤ (l.filter (fun g => decide (g.name = f.name))).length := hc
    omega
  · intro f g hf hg hname hrepo
    have hne : g ≠ f := fun he => hrepo (he ▸ rfl)
    have hfmem : f ∈ l.filter (fun g => decide (g.name = f.name)) :=
      List.mem_filter.mpr ⟨hf, by simp⟩
    have hgmem : g ∈ l.filter (fun g => decide (g.name = f.name)) :=
      List.mem_filter.mpr ⟨hg, by simpa using hname⟩
    exact two_le_length_of_mem_ne hgmem hfmem hne

/-- C8 witness. -/
theorem merged_listing_disambiguation_witness :
    setDisplayName
        [⟨"foo.md", "p1", "u1", 1, .file, none, some ⟨"o1", "r1", none, none⟩, none⟩,
          ⟨"foo.md", "p2", "u2", 2, .file, none, some ⟨"o2", "r2", none, none⟩, none⟩]
        ⟨"foo.md", "p1", "u1", 1, .file, none, some ⟨"o1", "r1", none, none⟩, none⟩
      = ⟨"foo.md", "p1", "u1", 1, .file, none, some ⟨"o1", "r1", none, none⟩,
          some "foo.md (o1/r1)"⟩ := by
  have h := merged_listing_disambiguation
    [⟨"foo.md", "p1", "u1", 1, .file, none, some ⟨"o1", "r1", none, none⟩, none⟩,
      ⟨"foo.md", "p2", "u2", 2, .file, none, some ⟨"o2", "r2", none, none⟩, none⟩]
    (by decide)
  exact h.2.1 _ (by simp) ⟨"o1", "r1", none, none⟩ rfl (by decide)

/-! ## C9: termination of the recursive directory listing -/

/-- On the self-referential listing, expanding the single directory item
fails at every recursion depth. -/
theorem expandItems_selfListing_none (repo : RepoSource) :
    ∀ n, expandItems selfListing repo n [selfItem] = none := by
  intro n
  induction n with
  | zero => simp [expandItems, selfItem]
  | succ m hm =>
      simp only [selfItem] at hm
      simp [expandItems, selfItem, selfListing, hm]

/-- C9 counterexample: the recursion does not terminate on every input
tree — on the self-referential listing in which path `p` lists a
directory entry whose own path is again `p`, no recursion depth
suffices (the source has no depth cap and recurses forever). -/
theorem getDirectoryContents_selfreferential_diverges :
    ¬ (∀ (listing : String → List GitHubFile) (repo : RepoSource) (p : String),
        ∃ n, (getDirectoryContents listing repo n p).isSome = true) := by
  intro h
  obtain ⟨n, hn⟩ := h selfListing sampleRepo "p"
  have hz : ∀ m, getDirectoryContents selfListing sampleRepo m "p" = none := by
    intro m
    match m with
    | 0 => rfl
    | k + 1 =>
        show expandItems selfListing sampleRepo k (selfListing "p") = none
        exact expandItems_selfListing_none sampleRepo k
  rw [hz n] at hn
  simp at hn

/-- Expanding a list of entries succeeds whenever every directory entry
still fits under the bound within the available fuel, provided every
directory entry produced by the listing strictly lengthens its path and
stays within the bound. -/
theorem expandItems_isSome_of_bounded (listing : String → List GitHubFile)
    (repo : RepoSource) (B : Nat)
    (hb : ∀ q, ∀ f ∈ listing q, f.ftype = .dir →
        q.length < f.path.length ∧ f.path.length ≤ B) :
    ∀ n (l : List GitHubFile),
      (∀ f ∈ l, f.ftype = .dir → f.path.length ≤ B ∧ B < n + f.path.length) →
      (expandItems listing repo n l).isSome = true := by
  intro n
  induction n using Nat.strong_induction_on with
  | _ n ih =>
      intro l
      induction l with
      | nil => intro _; simp [expandItems]
      | cons it rest ihl =>
          intro hl
          have htail : (expandItems listing repo n rest).isSome = true :=
            ihl (fun f hf => hl f (List.mem_cons_of_mem _ hf))
          obtain ⟨tv, htv⟩ := Option.isSome_iff_exists.mp htail
          by_cases hd : it.ftype = .dir
          · obtain ⟨hle, hlt⟩ := hl it (List.mem_cons_self _ _) hd
            cases n with
            | zero => omega
            | succ m =>
                have hsub : (expandItems listing repo m (listing it.path)).isSome = true := by
                  refine ih m (by omega) (listing it.path) ?_
                  intro f hf hfd
                  obtain ⟨h1, h2⟩ := hb it.path f hf hfd
                  exact ⟨h2, by omega⟩
                obtain ⟨sv, hsv⟩ := Option.isSome_iff_exists.mp hsub
                obtain ⟨tv2, htv2⟩ := Option.isSome_iff_exists.mp htail
                simp [expandItems, hd, hsv, htv2]
          · cases n with
            | zero => simp [expandItems, hd, htv]
            | succ m => simp [expandItems, hd, htv]

/-- C9 (amended): the recursion terminates on every well-formed bounded
listing tree — when every directory entry strictly lengthens its parent
path and all paths are bounded by `B`, depth `B + 1` suffices — but only
because source paths strictly lengthen; there is no defensive depth cap
in the source, and a self-referential tree recurses without bound. -/
theorem getDirectoryContents_terminates_on_bounded (listing : String → List GitHubFile)
    (repo : RepoSource) (B : Nat)
    (hb : ∀ q, ∀ f ∈ listing q, f.ftype = .dir →
        q.length < f.path.length ∧ f.path.length ≤ B) :
    ∀ p, (getDirectoryContents listing repo (B + 1) p).isSome = true := by
  intro p
  show (expandItems listing repo B (listing p)).isSome = true
  refine expandItems_isSome_of_bounded listing repo B hb B (listing p) ?_
  intro f hf hfd
  obtain ⟨h1, h2⟩ := hb p f hf hfd
  exact ⟨h2, by omega⟩

/-- C9 witness. -/
theorem getDirectoryContents_terminates_on_bounded_witness :
    (getDirectoryContents sampleListing sampleRepo 4 "s").isSome = true := by
  have hb : ∀ q, ∀ f ∈ sampleListing q, f.ftype = .dir →
      q.length < f.path.length ∧ f.path.length ≤ 3 := by
    intro q f hf hfd
    unfold sampleListing at hf
    by_cases hq : q = "s"
    · rw [if_pos hq] at hf
      have he : f = ⟨"a", "s/a", "u", 1, .dir, none, none, none⟩ := by
        simpa using hf
      subst he
      subst hq
      exact ⟨by decide, by decide⟩
    · rw [if_neg hq] at hf
      cases hf
  exact getDirectoryContents_terminates_on_bounded sampleListing sampleRepo 3 hb "s"

end AwesomeCopilot
